import Mathlib

/-!
Shallow embedding of the Wyronix client (`src/app.js`) and verification of
the routing/quota behaviour described in the specification.

The embedding models the DOM regions touched by `WyronixEngine` as a record
`UIState` (one field per mutable DOM attribute the code writes), and the
backend-message switch `handleBackendMessage` (app.js lines 206-273) as a
pure state transformer.  JavaScript truthiness on optional string payloads
(`if (msg.content) ...`) is modelled by `Option String` together with an
emptiness test; `x || 0` on an optional number is `jsOrInt`; `x || d` on an
optional string is `jsStrOr`.
-/

namespace Wyronix

/-- One stage card of the pipeline (`cardSearch`, `cardAnalyst`, `cardDev`). -/
inductive CardId where
  | search
  | analyst
  | dev
deriving DecidableEq

/-- The mutable attributes of a stage card that `app.js` writes:
membership of the `active-card` class, `style.opacity`, `style.borderColor`. -/
structure Card where
  activeCard : Bool
  opacity : String
  borderColor : String
deriving DecidableEq

/-- The `metrics` payload of an ANALYST event (`msg.metrics`). -/
structure Metrics where
  heat : Option Int
  roi : Option Int
  verdict : Option String
deriving DecidableEq

/-- The `data` payload of a SEARCH event (`msg.data`). -/
structure MsgData where
  tag : Option String
deriving DecidableEq

/-- An Update Event: one JSON message from the update stream (§3 of the spec).
`agent` is the routing tag; the remaining fields are the optional payloads
read by `handleBackendMessage`. -/
structure Msg where
  agent : String
  content : Option String
  data : Option MsgData
  metrics : Option Metrics
  file : Option String
  code : Option String
deriving DecidableEq

/-- A message carrying only an agent tag. -/
def mkMsg (agent : String) : Msg :=
  ⟨agent, none, none, none, none, none⟩

/-- The UI regions mutated by the engine.  One field per DOM attribute
written anywhere in `app.js`:
terminal / tags / fileTree are lists of appended entries, codePreview is the
accumulated `innerText`, the island fields mirror `updateIsland` plus the
status-dot background, and `consoleLog` records `console.warn`/`console.error`
diagnostics (which render nothing in the UI). `socketOpen` is the transport
state; no code in `handleBackendMessage` ever writes it. -/
structure UIState where
  cardSearch : Card
  cardAnalyst : Card
  cardDev : Card
  terminal : List String
  tags : List String
  gaugesHidden : Bool
  heatWidth : String
  heatIntense : Bool
  roiWidth : String
  roiIntense : Bool
  valHeat : String
  valROI : String
  verdictText : String
  verdictHidden : Bool
  fileTree : List String
  codePreview : String
  islandClass : String
  islandText : String
  islandSpinnerHidden : Bool
  islandDotHidden : Bool
  islandDotBackground : String
  btnExportHidden : Bool
  btnExportDisabled : Bool
  socketOpen : Bool
  consoleLog : List String
deriving DecidableEq

/-- JavaScript `x || 0` on the optional numeric gauge payload
(`msg.metrics.heat || 0`): absent means 0 (and `0 || 0 = 0`). -/
def jsOrInt : Option Int → Int
  | none => 0
  | some v => v

/-- JavaScript `x || d` on an optional string (`msg.content || '...'`):
absent or empty (falsy) yields the default. -/
def jsStrOr (o : Option String) (d : String) : String :=
  match o with
  | none => d
  | some s => if s.isEmpty then d else s

/-- Effect of `if (msg.content) logToTerminal(prefix + msg.content)`:
the list of log lines appended (empty when the payload is absent or falsy). -/
def optLine (pre : String) (o : Option String) : List String :=
  match o with
  | none => []
  | some c => if c.isEmpty then [] else [pre ++ c]

/-- Effect of `if (msg.data && msg.data.tag) addTag(msg.data.tag)`. -/
def optTag (d : Option MsgData) : List String :=
  match d with
  | none => []
  | some dd =>
    match dd.tag with
    | none => []
    | some t => if t.isEmpty then [] else [t]

/-- Effect of `if (msg.file) addFile(msg.file)`: `addFile` prepends the
file-icon glyph to the filename before appending to the tree. -/
def optFile (f : Option String) : List String :=
  match f with
  | none => []
  | some fl => if fl.isEmpty then [] else ["📄 " ++ fl]

/-- Effect of `if (msg.code) appendCode(msg.code)` on the preview text:
the appended string (appending the empty string is the same as skipping,
which is the falsy case of the guard). -/
def codeAppended (o : Option String) : String :=
  match o with
  | none => ""
  | some cd => cd

/-- `updateIsland(mode, text, showSpinner)` (app.js lines 276-286). -/
def updateIsland (mode text : String) (showSpinner : Bool) (s : UIState) : UIState :=
  let s1 := { s with islandClass := "dynamic-island " ++ mode, islandText := text }
  if showSpinner then
    { s1 with islandSpinnerHidden := false, islandDotHidden := true }
  else
    { s1 with islandSpinnerHidden := true, islandDotHidden := false }

/-- Read one stage card of the state. -/
def UIState.getCard (s : UIState) : CardId → Card
  | .search => s.cardSearch
  | .analyst => s.cardAnalyst
  | .dev => s.cardDev

/-- Replace one stage card of the state. -/
def UIState.setCard (s : UIState) (c : CardId) (card : Card) : UIState :=
  match c with
  | .search => { s with cardSearch := card }
  | .analyst => { s with cardAnalyst := card }
  | .dev => { s with cardDev := card }

/-- `setActiveCard(card)` (app.js lines 288-295): dim every card to
opacity 0.4, then give the chosen card opacity 1 and the `active-card`
class.  Note it does not remove `active-card` from the other cards. -/
def setActiveCard (c : CardId) (s : UIState) : UIState :=
  let s1 := { s with
    cardSearch := { s.cardSearch with opacity := "0.4" },
    cardAnalyst := { s.cardAnalyst with opacity := "0.4" },
    cardDev := { s.cardDev with opacity := "0.4" } }
  s1.setCard c { s1.getCard c with opacity := "1", activeCard := true }

/-- `completeCard(card)` (app.js lines 297-305): drop the `active-card`
class and mark the border, then restore opacity 1 on all three cards. -/
def completeCard (c : CardId) (s : UIState) : UIState :=
  let s1 := s.setCard c
    { s.getCard c with activeCard := false, borderColor := "rgba(255,255,255,0.1)" }
  { s1 with
    cardSearch := { s1.cardSearch with opacity := "1" },
    cardAnalyst := { s1.cardAnalyst with opacity := "1" },
    cardDev := { s1.cardDev with opacity := "1" } }

/-- `logToTerminal(text)` (app.js lines 307-314): append one log entry. -/
def logToTerminal (t : String) (s : UIState) : UIState :=
  { s with terminal := s.terminal ++ [t] }

/-- `handleBackendMessage(msg)` (app.js lines 206-273): the Update Router.
Each branch is translated statement by statement; conditional appends are
expressed through `optLine` / `optTag` / `optFile` / `codeAppended`, and the
ANALYST metrics block updates each gauge field from `msg.metrics`. -/
def handleBackendMessage (msg : Msg) (s : UIState) : UIState :=
  if msg.agent = "SEARCH" then
    -- setActiveCard(cardSearch); conditional log; conditional tag
    let s1 := setActiveCard CardId.search s
    { s1 with terminal := s1.terminal ++ optLine "> " msg.content,
              tags := s1.tags ++ optTag msg.data }
  else if msg.agent = "ANALYST" then
    -- completeCard(cardSearch); setActiveCard(cardAnalyst); metrics block; log
    let s1 := setActiveCard CardId.analyst (completeCard CardId.search s)
    let s2 := { s1 with
      gaugesHidden := (match msg.metrics with
        | some _ => false
        | none => s1.gaugesHidden),
      heatWidth := (match msg.metrics with
        | some mt => toString (jsOrInt mt.heat) ++ "%"
        | none => s1.heatWidth),
      heatIntense := (match msg.metrics with
        | some mt => if 70 < jsOrInt mt.heat then true else s1.heatIntense
        | none => s1.heatIntense),
      roiWidth := (match msg.metrics with
        | some mt => toString (jsOrInt mt.roi) ++ "%"
        | none => s1.roiWidth),
      roiIntense := (match msg.metrics with
        | some mt => if 70 < jsOrInt mt.roi then true else s1.roiIntense
        | none => s1.roiIntense),
      valHeat := (match msg.metrics with
        | some mt => toString (jsOrInt mt.heat) ++ "%"
        | none => s1.valHeat),
      valROI := (match msg.metrics with
        | some mt => toString (jsOrInt mt.roi) ++ "%"
        | none => s1.valROI),
      verdictText := (match msg.metrics with
        | some mt => (match mt.verdict with
          | some v => if v.isEmpty then s1.verdictText else v
          | none => s1.verdictText)
        | none => s1.verdictText),
      verdictHidden := (match msg.metrics with
        | some mt => (match mt.verdict with
          | some v => if v.isEmpty then s1.verdictHidden else false
          | none => s1.verdictHidden)
        | none => s1.verdictHidden) }
    { s2 with terminal := s2.terminal ++ optLine "[ANALYST] " msg.content }
  else if msg.agent = "DEV" then
    -- completeCard(cardAnalyst); setActiveCard(cardDev); file; code
    let s1 := setActiveCard CardId.dev (completeCard CardId.analyst s)
    { s1 with fileTree := s1.fileTree ++ optFile msg.file,
              codePreview := s1.codePreview ++ codeAppended msg.code }
  else if msg.agent = "COMPLETE" then
    -- completeCard(cardDev); updateIsland success
    updateIsland "success" "SEQUENCE COMPLETE" false (completeCard CardId.dev s)
  else if msg.agent = "ERROR" then
    -- log error line; updateIsland idle; red dot; console.error
    let s1 := logToTerminal ("[ERROR] " ++ jsStrOr msg.content "Unknown error occurred") s
    let s2 := updateIsland "idle" "ERROR OCCURRED" false s1
    { s2 with islandDotBackground := "#ff2a6d",
              consoleLog := s2.consoleLog ++ ["[BACKEND ERROR]"] }
  else
    -- default: console.warn only
    { s with consoleLog := s.consoleLog ++ ["[UNKNOWN AGENT]"] }

/-- Processing of a stream of Update Events, in arrival order. -/
def processMsgs (l : List Msg) (s : UIState) : UIState :=
  l.foldl (fun st m => handleBackendMessage m st) s

/-- The `socket.onclose` handler (app.js lines 196-203): island to success,
export button unhidden and enabled. -/
def onSocketClose (s : UIState) : UIState :=
  let s1 := { s with consoleLog := s.consoleLog ++ ["[SOCKET] Closed."] }
  let s2 := updateIsland "success" "SEQUENCE COMPLETE" false s1
  { s2 with btnExportHidden := false, btnExportDisabled := false }

/-- `resetUI()` (app.js lines 341-349). -/
def resetUI (s : UIState) : UIState :=
  { s with terminal := [], tags := [], fileTree := ["/root"], codePreview := "",
           verdictHidden := true, gaugesHidden := true, btnExportHidden := true }

/-- The UI state in which message processing starts: the session was reset by
`resetUI` (terminal/tags/fileTree/codePreview cleared, verdict and gauges and
export hidden), no card carries `active-card`, and the island was last set by
`connectWebSocket` (`updateIsland('active', 'AWAITING NEURAL FEED...', true)`). -/
def initialUI : UIState :=
  { cardSearch := ⟨false, "", ""⟩
    cardAnalyst := ⟨false, "", ""⟩
    cardDev := ⟨false, "", ""⟩
    terminal := []
    tags := []
    gaugesHidden := true
    heatWidth := ""
    heatIntense := false
    roiWidth := ""
    roiIntense := false
    valHeat := ""
    valROI := ""
    verdictText := ""
    verdictHidden := true
    fileTree := ["/root"]
    codePreview := ""
    islandClass := "dynamic-island active"
    islandText := "AWAITING NEURAL FEED..."
    islandSpinnerHidden := false
    islandDotHidden := true
    islandDotBackground := ""
    btnExportHidden := true
    btnExportDisabled := true
    socketOpen := true
    consoleLog := [] }

/-- The engine-level state read and written by `initiateRealProtocol`
(app.js lines 116-174): the input field, the monetization fields loaded in
the constructor (lines 17-18), the paywall modal, `state.status`/`state.idea`,
and the UI regions. `storedCount` is the persisted `wyronix_search_count`. -/
structure EngineState where
  inputValue : String
  isPremium : Bool
  searchCount : Int
  storedCount : Int
  paywallHidden : Bool
  status : String
  idea : String
  ui : UIState
deriving DecidableEq

/-- Externally visible side effects of `initiateRealProtocol`, in program
order: the input-shake animation, showing the paywall modal, the
`localStorage.setItem` persisting the quota counter, and the `/start`
session-bootstrap request. -/
inductive ProtoAction where
  | shakeInput
  | showPaywall
  | persistCount (n : Int)
  | fetchStart (idea : String)
deriving DecidableEq

/-- JavaScript `String.prototype.trim`: strip whitespace from both ends.
(Executable model; Lean's own `String.trim` is not kernel-reducible.) -/
def jsTrim (s : String) : String :=
  ⟨((s.data.dropWhile Char.isWhitespace).reverse.dropWhile Char.isWhitespace).reverse⟩

/-- `initiateRealProtocol()` (app.js lines 116-174) up to the point where the
session-bootstrap request is issued: blank-input guard (shake and return),
free-tier quota guard (paywall and return), quota increment and persistence,
then UI lock (`state.idea`, `state.status`, island, `resetUI`) and the
`/start` request.  The async continuation after the response is outside the
model; the request itself is the `fetchStart` action. -/
def initiateRealProtocol (s : EngineState) : EngineState × List ProtoAction :=
  let idea := jsTrim s.inputValue
  if idea.isEmpty then
    (s, [ProtoAction.shakeInput])
  else if s.isPremium = false ∧ 3 ≤ s.searchCount then
    ({ s with paywallHidden := false }, [ProtoAction.showPaywall])
  else
    let s1 := if s.isPremium = false then
        { s with searchCount := s.searchCount + 1, storedCount := s.searchCount + 1 }
      else s
    let acts := if s.isPremium = false then
        [ProtoAction.persistCount (s.searchCount + 1)]
      else []
    let s2 := { s1 with idea := idea, status := "CONNECTING",
                        ui := resetUI (updateIsland "active" "ESTABLISHING UPLINK..." true s1.ui) }
    (s2, acts ++ [ProtoAction.fetchStart idea])

/-! ### Derived notions used to state the claims -/

/-- The code payload a single message contributes to the code preview:
the `code` string of a DEV event, nothing for any other event. -/
def codeOf (m : Msg) : String :=
  if m.agent = "DEV" then codeAppended m.code else ""

/-- Concatenation of the code payloads of a stream, in order. -/
def codeConcat : List Msg → String
  | [] => ""
  | m :: rest => codeOf m ++ codeConcat rest

/-- Whether one message makes the heat gauge intense: an ANALYST event whose
metrics are present with a (defaulted) heat value above 70. -/
def heatTrigger (m : Msg) : Bool :=
  if m.agent = "ANALYST" then
    match m.metrics with
    | some mt => if 70 < jsOrInt mt.heat then true else false
    | none => false
  else false

/-- Whether one message makes the roi gauge intense. -/
def roiTrigger (m : Msg) : Bool :=
  if m.agent = "ANALYST" then
    match m.metrics with
    | some mt => if 70 < jsOrInt mt.roi then true else false
    | none => false
  else false

/-- Which card an agent tag marks active (`setActiveCard` call sites in
`handleBackendMessage`). -/
def activatesCard (tag : String) : CardId → Bool
  | .search => tag == "SEARCH"
  | .analyst => tag == "ANALYST"
  | .dev => tag == "DEV"

/-- Which card an agent tag marks completed (`completeCard` call sites in
`handleBackendMessage`). -/
def completesCard (tag : String) : CardId → Bool
  | .search => tag == "ANALYST"
  | .analyst => tag == "DEV"
  | .dev => tag == "COMPLETE"

/-- The effect of one message on the `active-card` flag of one card:
activated cards become active, completed cards stop being active, every
other card keeps its flag. -/
def stepActive (tag : String) (c : CardId) (b : Bool) : Bool :=
  if activatesCard tag c then true
  else if completesCard tag c then false
  else b

/-- Protocol rank of a stage-relevant agent tag, `none` for tags that do not
touch the stage cards (ERROR and unknown tags). -/
def tagRank (tag : String) : Option Nat :=
  if tag = "SEARCH" then some 0
  else if tag = "ANALYST" then some 1
  else if tag = "DEV" then some 2
  else if tag = "COMPLETE" then some 3
  else none

/-- Pipeline position of a stage card. -/
def cardRank : CardId → Nat
  | .search => 0
  | .analyst => 1
  | .dev => 2

/-- Rank comparison between two messages; vacuously true when either side
carries no stage-relevant tag. -/
def rankLe (m1 m2 : Msg) : Bool :=
  match tagRank m1.agent, tagRank m2.agent with
  | some r1, some r2 => decide (r1 ≤ r2)
  | _, _ => true

/-- A stream whose stage-relevant tags occur in non-decreasing protocol
order (SEARCH before ANALYST before DEV before COMPLETE); ERROR and unknown
tags may appear anywhere. -/
abbrev OrderedStream (l : List Msg) : Prop :=
  l.Pairwise fun a b => rankLe a b = true

/-- The stage ranks of a stream, in order. -/
def stageRanks (l : List Msg) : List Nat :=
  l.filterMap fun m => tagRank m.agent

/-- Adjacent admissibility of a rank sequence after a given last rank:
ranks never decrease, and a DEV event (rank 2) never directly follows a
SEARCH event (rank 0) without an ANALYST event in between. -/
def okRanks : Option Nat → List Nat → Bool
  | _, [] => true
  | last, r :: rest =>
    (match last with
     | none => true
     | some p => decide (p ≤ r) && !(decide (p = 0) && decide (r = 2))) && okRanks (some r) rest

/-- Invariant tying the `active-card` flags of the three cards to the rank
of the most recent stage event. -/
def Inv : Option Nat → Bool → Bool → Bool → Prop
  | none, bs, ba, bd => bs = false ∧ ba = false ∧ bd = false
  | some 0, bs, ba, bd => bs = true ∧ ba = false ∧ bd = false
  | some 1, bs, ba, bd => bs = false ∧ ba = true ∧ bd = false
  | some 2, bs, ba, bd => bs = false ∧ ba = false ∧ bd = true
  | some 3, bs, ba, bd => bd = false ∧ (bs = false ∨ ba = false)
  | some _, _, _, _ => False

/-- How many cards carry the `active-card` class. -/
def activeTotal (s : UIState) : Nat :=
  s.cardSearch.activeCard.toNat + s.cardAnalyst.activeCard.toNat + s.cardDev.activeCard.toNat

/-- The `active-card` flag of card `c` after processing the first `k`
events of stream `l` from the reset state. -/
def activeAt (l : List Msg) (k : Nat) (c : CardId) : Bool :=
  ((processMsgs (l.take k) initialUI).getCard c).activeCard

/-! ### Concrete fixtures for counterexamples and witnesses -/

/-- An ANALYST event carrying only a heat metric. -/
def mA (h : Int) : Msg :=
  ⟨"ANALYST", none, none, some ⟨some h, none, none⟩, none, none⟩

/-- An ANALYST event whose metrics object is present but empty. -/
def mAnone : Msg :=
  ⟨"ANALYST", none, none, some ⟨none, none, none⟩, none, none⟩

/-- A DEV event carrying only a code payload. -/
def mDev (c : String) : Msg :=
  ⟨"DEV", none, none, none, none, some c⟩

/-- An ERROR event with content. -/
def mErr : Msg :=
  ⟨"ERROR", some "boom", none, none, none, none⟩

/-- Non-premium engine at the quota limit with a blank input field. -/
def engineBlank : EngineState :=
  ⟨"", false, 3, 3, true, "STANDBY", "", initialUI⟩

/-- Non-premium engine with a whitespace-only input field. -/
def engineWs : EngineState :=
  ⟨"   ", false, 0, 0, true, "STANDBY", "", initialUI⟩

/-- Non-premium engine under the quota with a usable input. -/
def engineGo : EngineState :=
  ⟨"app idea", false, 1, 1, true, "STANDBY", "", initialUI⟩

/-- Non-premium engine at the quota limit with a usable input. -/
def enginePay : EngineState :=
  ⟨"app idea", false, 3, 3, true, "STANDBY", "", initialUI⟩

/-- Premium engine with a usable input. -/
def enginePrem : EngineState :=
  ⟨"app idea", true, 5, 5, true, "STANDBY", "", initialUI⟩

/-! ### Helper lemmas about the message handler -/

/-- Every message contributes exactly `codeOf` to the code preview. -/
theorem handle_codePreview (m : Msg) (s : UIState) :
    (handleBackendMessage m s).codePreview = s.codePreview ++ codeOf m := by
  obtain ⟨ag, content, data, metrics, file, code⟩ := m
  by_cases h1 : ag = "SEARCH"
  · subst h1
    simp [handleBackendMessage, codeOf, setActiveCard, UIState.setCard, UIState.getCard]
  by_cases h2 : ag = "ANALYST"
  · subst h2
    simp [handleBackendMessage, codeOf, setActiveCard, completeCard, UIState.setCard,
          UIState.getCard]
  by_cases h3 : ag = "DEV"
  · subst h3
    simp [handleBackendMessage, codeOf, setActiveCard, completeCard, UIState.setCard,
          UIState.getCard]
  by_cases h4 : ag = "COMPLETE"
  · subst h4
    simp [handleBackendMessage, codeOf, updateIsland, completeCard, UIState.setCard,
          UIState.getCard]
  by_cases h5 : ag = "ERROR"
  · subst h5; simp [handleBackendMessage, codeOf, updateIsland, logToTerminal]
  simp [handleBackendMessage, codeOf, h1, h2, h3, h4, h5]

/-- Every message either sets the heat-intense flag (when it is an ANALYST
event whose heat exceeds 70) or leaves it alone; it is never cleared. -/
theorem handle_heatIntense (m : Msg) (s : UIState) :
    (handleBackendMessage m s).heatIntense = (s.heatIntense || heatTrigger m) := by
  obtain ⟨ag, content, data, metrics, file, code⟩ := m
  by_cases h1 : ag = "SEARCH"
  · subst h1
    simp [handleBackendMessage, heatTrigger, setActiveCard, UIState.setCard, UIState.getCard]
  by_cases h2 : ag = "ANALYST"
  · subst h2
    rcases metrics with _ | mt
    · simp [handleBackendMessage, heatTrigger, setActiveCard, completeCard, UIState.setCard,
            UIState.getCard]
    · by_cases hh : 70 < jsOrInt mt.heat <;>
        simp [handleBackendMessage, heatTrigger, hh, setActiveCard, completeCard,
              UIState.setCard, UIState.getCard]
  by_cases h3 : ag = "DEV"
  · subst h3
    simp [handleBackendMessage, heatTrigger, setActiveCard, completeCard, UIState.setCard,
          UIState.getCard]
  by_cases h4 : ag = "COMPLETE"
  · subst h4
    simp [handleBackendMessage, heatTrigger, updateIsland, completeCard, UIState.setCard,
          UIState.getCard]
  by_cases h5 : ag = "ERROR"
  · subst h5; simp [handleBackendMessage, heatTrigger, updateIsland, logToTerminal]
  simp [handleBackendMessage, heatTrigger, h1, h2, h3, h4, h5]

/-- Same as `handle_heatIntense` for the roi gauge. -/
theorem handle_roiIntense (m : Msg) (s : UIState) :
    (handleBackendMessage m s).roiIntense = (s.roiIntense || roiTrigger m) := by
  obtain ⟨ag, content, data, metrics, file, code⟩ := m
  by_cases h1 : ag = "SEARCH"
  · subst h1
    simp [handleBackendMessage, roiTrigger, setActiveCard, UIState.setCard, UIState.getCard]
  by_cases h2 : ag = "ANALYST"
  · subst h2
    rcases metrics with _ | mt
    · simp [handleBackendMessage, roiTrigger, setActiveCard, completeCard, UIState.setCard,
            UIState.getCard]
    · by_cases hh : 70 < jsOrInt mt.roi <;>
        simp [handleBackendMessage, roiTrigger, hh, setActiveCard, completeCard,
              UIState.setCard, UIState.getCard]
  by_cases h3 : ag = "DEV"
  · subst h3
    simp [handleBackendMessage, roiTrigger, setActiveCard, completeCard, UIState.setCard,
          UIState.getCard]
  by_cases h4 : ag = "COMPLETE"
  · subst h4
    simp [handleBackendMessage, roiTrigger, updateIsland, completeCard, UIState.setCard,
          UIState.getCard]
  by_cases h5 : ag = "ERROR"
  · subst h5; simp [handleBackendMessage, roiTrigger, updateIsland, logToTerminal]
  simp [handleBackendMessage, roiTrigger, h1, h2, h3, h4, h5]

/-- The heat-intense flag after a stream is the disjunction of the start
flag with the triggers of all processed events. -/
theorem processMsgs_heatIntense (l : List Msg) (s : UIState) :
    (processMsgs l s).heatIntense = (s.heatIntense || l.any heatTrigger) := by
  induction l generalizing s with
  | nil => simp [processMsgs]
  | cons m rest ih =>
    have h : processMsgs (m :: rest) s = processMsgs rest (handleBackendMessage m s) := rfl
    rw [h, ih, handle_heatIntense]
    simp [Bool.or_assoc]

/-- Same as `processMsgs_heatIntense` for the roi gauge. -/
theorem processMsgs_roiIntense (l : List Msg) (s : UIState) :
    (processMsgs l s).roiIntense = (s.roiIntense || l.any roiTrigger) := by
  induction l generalizing s with
  | nil => simp [processMsgs]
  | cons m rest ih =>
    have h : processMsgs (m :: rest) s = processMsgs rest (handleBackendMessage m s) := rfl
    rw [h, ih, handle_roiIntense]
    simp [Bool.or_assoc]

/-! ### Claims -/

/-- Claim C3 (confirmed): whenever the update stream's close handler runs —
whatever the UI state left behind by the previously processed tagged
messages, including a state last touched by an ERROR event — the island is
set to the success state with text SEQUENCE COMPLETE and the export button
is unhidden and enabled. -/
theorem c3_close_success (s : UIState) :
    (onSocketClose s).islandClass = "dynamic-island success" ∧
    (onSocketClose s).islandText = "SEQUENCE COMPLETE" ∧
    (onSocketClose s).islandSpinnerHidden = true ∧
    (onSocketClose s).islandDotHidden = false ∧
    (onSocketClose s).btnExportHidden = false ∧
    (onSocketClose s).btnExportDisabled = false :=
  ⟨rfl, rfl, rfl, rfl, rfl, rfl⟩

/-- Claim C5, counterexample: processing a COMPLETE event from the reset
state marks the DEV card completed and the island successful, but the
export button stays hidden — COMPLETE does not enable the export action,
contrary to the claim. -/
theorem c5_complete_counterexample :
    (handleBackendMessage (mkMsg "COMPLETE") initialUI).cardDev.activeCard = false ∧
    (handleBackendMessage (mkMsg "COMPLETE") initialUI).islandClass = "dynamic-island success" ∧
    (handleBackendMessage (mkMsg "COMPLETE") initialUI).btnExportHidden = true :=
  ⟨rfl, rfl, rfl⟩

/-- Claim C5 (amended): processing a COMPLETE event marks the DEV stage card
completed and sets the island to the success state; it leaves the export
button untouched — the export action is enabled only by the stream-close
handler. -/
theorem c5_complete_amended (m : Msg) (s : UIState) (h : m.agent = "COMPLETE") :
    handleBackendMessage m s = { s with
      cardSearch := { s.cardSearch with opacity := "1" },
      cardAnalyst := { s.cardAnalyst with opacity := "1" },
      cardDev := { activeCard := false, opacity := "1",
                   borderColor := "rgba(255,255,255,0.1)" },
      islandClass := "dynamic-island success",
      islandText := "SEQUENCE COMPLETE",
      islandSpinnerHidden := true,
      islandDotHidden := false } ∧
    (handleBackendMessage m s).btnExportHidden = s.btnExportHidden ∧
    (handleBackendMessage m s).btnExportDisabled = s.btnExportDisabled := by
  obtain ⟨ag, content, data, metrics, file, code⟩ := m
  replace h : ag = "COMPLETE" := h
  subst h
  exact ⟨rfl, rfl, rfl⟩

/-- Witness for `c5_complete_amended` at a concrete COMPLETE event. -/
theorem c5_complete_witness :
    (mkMsg "COMPLETE").agent = "COMPLETE" ∧
    (handleBackendMessage (mkMsg "COMPLETE") initialUI).btnExportHidden =
      initialUI.btnExportHidden :=
  ⟨rfl, (c5_complete_amended (mkMsg "COMPLETE") initialUI rfl).2.1⟩

/-- Claim C6 (confirmed): the code preview accumulates the code payloads of
DEV events by concatenation, in order; a single DEV event carrying code `cd`
appends `cd` to the existing buffer rather than replacing it.  Starting from
the reset buffer (`initialUI.codePreview = ""`) the buffer therefore ends as
the concatenation of all code payloads. -/
theorem c6_code_append :
    (∀ (l : List Msg) (s : UIState),
      (processMsgs l s).codePreview = s.codePreview ++ codeConcat l) ∧
    (∀ (m : Msg) (s : UIState) (cd : String), m.agent = "DEV" → m.code = some cd →
      (handleBackendMessage m s).codePreview = s.codePreview ++ cd) := by
  constructor
  · intro l
    induction l with
    | nil => intro s; exact (String.append_empty _).symm
    | cons m rest ih =>
      intro s
      have h : processMsgs (m :: rest) s = processMsgs rest (handleBackendMessage m s) := rfl
      rw [h, ih, handle_codePreview, String.append_assoc]
      rfl
  · intro m s cd hag hcd
    rw [handle_codePreview]
    obtain ⟨ag, content, data, metrics, file, code⟩ := m
    replace hag : ag = "DEV" := hag
    replace hcd : code = some cd := hcd
    subst hag
    subst hcd
    rfl

/-- Witness for `c6_code_append` at a concrete DEV event. -/
theorem c6_code_witness :
    (mDev "abc").agent = "DEV" ∧ (mDev "abc").code = some "abc" ∧
    (handleBackendMessage (mDev "abc") initialUI).codePreview =
      initialUI.codePreview ++ "abc" :=
  ⟨rfl, rfl, c6_code_append.2 (mDev "abc") initialUI "abc" rfl rfl⟩

/-- Claim C7 (confirmed): an event whose agent tag is not one of the five
known tags changes nothing in the UI state — stage cards, terminal, tags,
gauges, verdict, file list, code preview, island, export button and socket
are all untouched; only the diagnostic console log (which renders nothing)
gains the warning entry, and no failure state is entered. -/
theorem c7_unknown_noop (m : Msg) (s : UIState)
    (h : m.agent ∉ (["SEARCH", "ANALYST", "DEV", "COMPLETE", "ERROR"] : List String)) :
    handleBackendMessage m s = { s with consoleLog := s.consoleLog ++ ["[UNKNOWN AGENT]"] } := by
  obtain ⟨ag, content, data, metrics, file, code⟩ := m
  simp only [List.mem_cons, List.not_mem_nil, or_false, not_or] at h
  obtain ⟨h1, h2, h3, h4, h5⟩ := h
  unfold handleBackendMessage
  rw [if_neg h1, if_neg h2, if_neg h3, if_neg h4, if_neg h5]

/-- Witness for `c7_unknown_noop` at a concrete unknown tag. -/
theorem c7_unknown_witness :
    (mkMsg "PLANNER").agent ∉ (["SEARCH", "ANALYST", "DEV", "COMPLETE", "ERROR"] : List String) ∧
    handleBackendMessage (mkMsg "PLANNER") initialUI =
      { initialUI with consoleLog := initialUI.consoleLog ++ ["[UNKNOWN AGENT]"] } :=
  ⟨by decide, c7_unknown_noop (mkMsg "PLANNER") initialUI (by decide)⟩

/-- Claim C8 (confirmed): an ERROR event appends exactly one error line to
the terminal — built from the event's content, or the default message when
content is absent (or empty, which JavaScript treats as absent) — and puts
the island into the failure indication (idle mode, text ERROR OCCURRED, red
status dot).  It does not touch the socket, the stage cards, or anything
else: the full record equality shows every other region unchanged. -/
theorem c8_error_event (m : Msg) (s : UIState) (h : m.agent = "ERROR") :
    handleBackendMessage m s = { s with
      terminal := s.terminal ++ ["[ERROR] " ++ jsStrOr m.content "Unknown error occurred"],
      islandClass := "dynamic-island idle",
      islandText := "ERROR OCCURRED",
      islandSpinnerHidden := true,
      islandDotHidden := false,
      islandDotBackground := "#ff2a6d",
      consoleLog := s.consoleLog ++ ["[BACKEND ERROR]"] } ∧
    (m.content = none → jsStrOr m.content "Unknown error occurred" = "Unknown error occurred") ∧
    (∀ c : String, m.content = some c → c.isEmpty = false →
      jsStrOr m.content "Unknown error occurred" = c) ∧
    (handleBackendMessage m s).socketOpen = s.socketOpen ∧
    (handleBackendMessage m s).cardSearch = s.cardSearch ∧
    (handleBackendMessage m s).cardAnalyst = s.cardAnalyst ∧
    (handleBackendMessage m s).cardDev = s.cardDev := by
  obtain ⟨ag, content, data, metrics, file, code⟩ := m
  replace h : ag = "ERROR" := h
  subst h
  refine ⟨rfl, ?_, ?_, rfl, rfl, rfl, rfl⟩
  · intro hc
    replace hc : content = none := hc
    subst hc
    rfl
  · intro c hc hce
    replace hc : content = some c := hc
    subst hc
    simp [jsStrOr, hce]

/-- Witness for `c8_error_event` at a concrete ERROR event with content. -/
theorem c8_error_witness :
    mErr.agent = "ERROR" ∧
    (handleBackendMessage mErr initialUI).socketOpen = initialUI.socketOpen ∧
    jsStrOr mErr.content "Unknown error occurred" = "boom" := by
  have h := c8_error_event mErr initialUI rfl
  exact ⟨rfl, h.2.2.2.1, h.2.2.1 "boom" rfl rfl⟩

/-- Claim C9, counterexample: a non-premium engine with stored count 3 but a
blank input field takes the blank-input path — the paywall modal is not
shown (it stays hidden) and only the shake action happens, falsifying the
universally quantified claim. -/
theorem c9_quota_counterexample :
    engineBlank.isPremium = false ∧ 3 ≤ engineBlank.searchCount ∧
    (initiateRealProtocol engineBlank).1.paywallHidden = true ∧
    (initiateRealProtocol engineBlank).2 = [ProtoAction.shakeInput] :=
  ⟨rfl, by decide, rfl, rfl⟩

/-- Claim C9 (amended): for every invocation of `initiateRealProtocol`
whose trimmed input is non-blank: a non-premium user with stored count at
least 3 gets the paywall shown, no bootstrap request, and unchanged counts;
a non-premium user under the quota gets the count incremented by exactly 1
and persisted before the bootstrap request; a premium user never sees the
paywall and never has the count incremented. -/
theorem c9_quota_amended (s : EngineState)
    (hne : (jsTrim s.inputValue).isEmpty = false) :
    (s.isPremium = false → 3 ≤ s.searchCount →
      (initiateRealProtocol s).1.paywallHidden = false ∧
      (initiateRealProtocol s).2 = [ProtoAction.showPaywall] ∧
      (initiateRealProtocol s).1.searchCount = s.searchCount ∧
      (initiateRealProtocol s).1.storedCount = s.storedCount) ∧
    (s.isPremium = false → s.searchCount < 3 →
      (initiateRealProtocol s).1.searchCount = s.searchCount + 1 ∧
      (initiateRealProtocol s).1.storedCount = s.searchCount + 1 ∧
      (initiateRealProtocol s).2 =
        [ProtoAction.persistCount (s.searchCount + 1),
         ProtoAction.fetchStart (jsTrim s.inputValue)]) ∧
    (s.isPremium = true →
      (initiateRealProtocol s).1.paywallHidden = s.paywallHidden ∧
      (initiateRealProtocol s).1.searchCount = s.searchCount ∧
      (initiateRealProtocol s).1.storedCount = s.storedCount ∧
      (initiateRealProtocol s).2 = [ProtoAction.fetchStart (jsTrim s.inputValue)]) := by
  refine ⟨?_, ?_, ?_⟩
  · intro hp h3
    have hcond : s.isPremium = false ∧ 3 ≤ s.searchCount := ⟨hp, h3⟩
    simp [initiateRealProtocol, hne, hcond]
  · intro hp hlt
    have hn3 : ¬(3 ≤ s.searchCount) := by omega
    simp [initiateRealProtocol, hne, hp, hn3]
  · intro hp
    have hcond : ¬(s.isPremium = false ∧ 3 ≤ s.searchCount) := fun hc => by
      rw [hp] at hc; exact absurd hc.1 (by decide)
    simp [initiateRealProtocol, hne, hcond, hp]

/-- Witness for `c9_quota_amended` at concrete engines exercising all three
branches. -/
theorem c9_quota_witness :
    ((initiateRealProtocol enginePay).1.paywallHidden = false ∧
     (initiateRealProtocol enginePay).2 = [ProtoAction.showPaywall] ∧
     (initiateRealProtocol enginePay).1.searchCount = enginePay.searchCount ∧
     (initiateRealProtocol enginePay).1.storedCount = enginePay.storedCount) ∧
    ((initiateRealProtocol engineGo).1.searchCount = engineGo.searchCount + 1 ∧
     (initiateRealProtocol engineGo).1.storedCount = engineGo.searchCount + 1 ∧
     (initiateRealProtocol engineGo).2 =
       [ProtoAction.persistCount (engineGo.searchCount + 1),
        ProtoAction.fetchStart (jsTrim engineGo.inputValue)]) ∧
    ((initiateRealProtocol enginePrem).1.paywallHidden = enginePrem.paywallHidden ∧
     (initiateRealProtocol enginePrem).1.searchCount = enginePrem.searchCount ∧
     (initiateRealProtocol enginePrem).1.storedCount = enginePrem.storedCount ∧
     (initiateRealProtocol enginePrem).2 =
       [ProtoAction.fetchStart (jsTrim enginePrem.inputValue)]) :=
  ⟨(c9_quota_amended enginePay (by decide)).1 rfl (by decide),
   (c9_quota_amended engineGo (by decide)).2.1 rfl (by decide),
   (c9_quota_amended enginePrem (by decide)).2.2 rfl⟩

/-- Claim C10 (confirmed): when the input field's value is blank (empty or
whitespace-only, so its trim is empty), `initiateRealProtocol` returns with
the engine state completely unchanged — no network request, no count
change, no session state or UI change — and only the transient input-shake
animation happens. -/
theorem c10_blank_input (s : EngineState)
    (h : (jsTrim s.inputValue).isEmpty = true) :
    initiateRealProtocol s = (s, [ProtoAction.shakeInput]) := by
  simp [initiateRealProtocol, h]

/-- Witness for `c10_blank_input` at a whitespace-only input. -/
theorem c10_blank_input_witness :
    (jsTrim engineWs.inputValue).isEmpty = true ∧
    initiateRealProtocol engineWs = (engineWs, [ProtoAction.shakeInput]) :=
  ⟨by decide, c10_blank_input engineWs (by decide)⟩

/-- Claim C4, counterexample: after ANALYST events with heat 80 then heat 50
the heat gauge shows 50% but still carries the intense flag — the code only
ever adds the `intense` class and never removes it, so the claimed
`iff` (and in particular the required clearing at values of 70 or below)
fails. -/
theorem c4_gauge_counterexample :
    (processMsgs [mA 80, mA 50] initialUI).heatIntense = true ∧
    (processMsgs [mA 80, mA 50] initialUI).heatWidth = "50%" ∧
    (processMsgs [mA 80, mA 50] initialUI).valHeat = "50%" :=
  ⟨rfl, rfl, rfl⟩

/-- Claim C4 (amended): gauge values are taken as 0 when `metrics.heat` /
`metrics.roi` are absent, and the intense flag is one-way: after processing
any sequence of events from the reset state the flag is set if and only if
some processed ANALYST event carried metrics whose (defaulted) value exceeds
70 — once set it persists even when a later event sets a value of 70 or
below. -/
theorem c4_gauge_amended :
    (∀ (m : Msg) (s : UIState) (mt : Metrics), m.agent = "ANALYST" → m.metrics = some mt →
      (mt.heat = none →
        (handleBackendMessage m s).heatWidth = "0%" ∧
        (handleBackendMessage m s).valHeat = "0%") ∧
      (mt.roi = none →
        (handleBackendMessage m s).roiWidth = "0%" ∧
        (handleBackendMessage m s).valROI = "0%")) ∧
    (∀ l : List Msg,
      ((processMsgs l initialUI).heatIntense = true ↔ ∃ m ∈ l, heatTrigger m = true) ∧
      ((processMsgs l initialUI).roiIntense = true ↔ ∃ m ∈ l, roiTrigger m = true)) := by
  constructor
  · rintro ⟨ag, content, data, metrics, file, code⟩ s mt hag hmt
    replace hag : ag = "ANALYST" := hag
    replace hmt : metrics = some mt := hmt
    subst hag
    subst hmt
    obtain ⟨mh, mr, mv⟩ := mt
    constructor
    · intro hh
      replace hh : mh = none := hh
      subst hh
      exact ⟨rfl, rfl⟩
    · intro hr
      replace hr : mr = none := hr
      subst hr
      exact ⟨rfl, rfl⟩
  · intro l
    constructor
    · rw [processMsgs_heatIntense]
      simp [initialUI, List.any_eq_true]
    · rw [processMsgs_roiIntense]
      simp [initialUI, List.any_eq_true]

/-- Witness for `c4_gauge_amended` at concrete events. -/
theorem c4_gauge_witness :
    (handleBackendMessage mAnone initialUI).heatWidth = "0%" ∧
    (handleBackendMessage mAnone initialUI).valHeat = "0%" ∧
    (handleBackendMessage mAnone initialUI).roiWidth = "0%" ∧
    (handleBackendMessage mAnone initialUI).valROI = "0%" ∧
    ((processMsgs [mA 80] initialUI).heatIntense = true ↔
      ∃ m ∈ [mA 80], heatTrigger m = true) := by
  have h1 := c4_gauge_amended.1 mAnone initialUI ⟨none, none, none⟩ rfl rfl
  exact ⟨(h1.1 rfl).1, (h1.1 rfl).2, (h1.2 rfl).1, (h1.2 rfl).2,
         (c4_gauge_amended.2 [mA 80]).1⟩

/-! ### Helper lemmas for the stage-card claims C1 and C2 -/

/-- The effect of any message on the `active-card` flag of any card is
exactly `stepActive` applied to its agent tag. -/
theorem active_step (m : Msg) (s : UIState) (c : CardId) :
    ((handleBackendMessage m s).getCard c).activeCard =
      stepActive m.agent c ((s.getCard c).activeCard) := by
  obtain ⟨ag, content, data, metrics, file, code⟩ := m
  by_cases h1 : ag = "SEARCH"
  · subst h1
    cases c <;>
      simp [handleBackendMessage, stepActive, activatesCard, completesCard,
            setActiveCard, UIState.setCard, UIState.getCard]
  by_cases h2 : ag = "ANALYST"
  · subst h2
    cases c <;>
      simp [handleBackendMessage, stepActive, activatesCard, completesCard,
            setActiveCard, completeCard, UIState.setCard, UIState.getCard]
  by_cases h3 : ag = "DEV"
  · subst h3
    cases c <;>
      simp [handleBackendMessage, stepActive, activatesCard, completesCard,
            setActiveCard, completeCard, UIState.setCard, UIState.getCard]
  by_cases h4 : ag = "COMPLETE"
  · subst h4
    cases c <;>
      simp [handleBackendMessage, stepActive, activatesCard, completesCard,
            updateIsland, completeCard, UIState.setCard, UIState.getCard]
  by_cases h5 : ag = "ERROR"
  · subst h5
    cases c <;>
      simp [handleBackendMessage, stepActive, activatesCard, completesCard,
            updateIsland, logToTerminal, UIState.getCard]
  cases c <;>
    simp [handleBackendMessage, stepActive, activatesCard, completesCard,
          UIState.getCard, h1, h2, h3, h4, h5]

/-- Tags without a stage rank leave every `active-card` flag unchanged. -/
theorem stepActive_of_tagRank_none {ag : String} (h : tagRank ag = none)
    (c : CardId) (b : Bool) : stepActive ag c b = b := by
  unfold tagRank at h
  split_ifs at h with h1 h2 h3 h4
  cases c <;> simp [stepActive, activatesCard, completesCard, h1, h2, h3, h4]

/-- Inversion of `tagRank`. -/
theorem tagRank_some_cases {ag : String} {r : Nat} (h : tagRank ag = some r) :
    (ag = "SEARCH" ∧ r = 0) ∨ (ag = "ANALYST" ∧ r = 1) ∨
    (ag = "DEV" ∧ r = 2) ∨ (ag = "COMPLETE" ∧ r = 3) := by
  unfold tagRank at h
  split_ifs at h with h1 h2 h3 h4
  · exact Or.inl ⟨h1, by injection h with h'; exact h'.symm⟩
  · exact Or.inr (Or.inl ⟨h2, by injection h with h'; exact h'.symm⟩)
  · exact Or.inr (Or.inr (Or.inl ⟨h3, by injection h with h'; exact h'.symm⟩))
  · exact Or.inr (Or.inr (Or.inr ⟨h4, by injection h with h'; exact h'.symm⟩))

/-- A tag that activates card `c` has rank `cardRank c`. -/
theorem activatesCard_rank {ag : String} {c : CardId}
    (h : activatesCard ag c = true) : tagRank ag = some (cardRank c) := by
  cases c <;> simp [activatesCard] at h <;> subst h <;> rfl

/-- A tag that completes card `c` has rank `cardRank c + 1`. -/
theorem completesCard_rank {ag : String} {c : CardId}
    (h : completesCard ag c = true) : tagRank ag = some (cardRank c + 1) := by
  cases c <;> simp [completesCard] at h <;> subst h <;> rfl

/-- A step that turns an active card inactive is a completion. -/
theorem stepActive_deactivated {ag : String} {c : CardId} {b : Bool}
    (hb : b = true) (h : stepActive ag c b = false) :
    completesCard ag c = true := by
  unfold stepActive at h
  split_ifs at h with ha hc
  · exact hc
  · rw [hb] at h
    exact absurd h (by simp)

/-- An inactive card stays inactive under any tag that does not activate it. -/
theorem stepActive_false {ag : String} {c : CardId}
    (ha : activatesCard ag c = false) : stepActive ag c false = false := by
  unfold stepActive
  rw [ha]
  simp

/-- Unfolding of `activeAt` one event at a time, when event `k` exists. -/
theorem activeAt_succ_of_getElem (l : List Msg) (k : Nat) (c : CardId) (m : Msg)
    (h : l[k]? = some m) :
    activeAt l (k+1) c = stepActive m.agent c (activeAt l k c) := by
  unfold activeAt processMsgs
  rw [List.take_succ, h]
  simp [List.foldl_append]
  exact active_step m _ c

/-- `activeAt` is stable past the end of the stream. -/
theorem activeAt_succ_of_none (l : List Msg) (k : Nat) (c : CardId)
    (h : l[k]? = none) : activeAt l (k+1) c = activeAt l k c := by
  unfold activeAt processMsgs
  rw [List.take_succ, h]
  simp

/-- `Inv` bounds the number of simultaneously active cards by one. -/
theorem inv_atMostOne {last : Option Nat} {bs ba bd : Bool}
    (h : Inv last bs ba bd) : bs.toNat + ba.toNat + bd.toNat ≤ 1 := by
  rcases last with _ | p
  · obtain ⟨rfl, rfl, rfl⟩ := h
    decide
  · rcases p with _ | _ | _ | _ | p
    · obtain ⟨rfl, rfl, rfl⟩ := h
      decide
    · obtain ⟨rfl, rfl, rfl⟩ := h
      decide
    · obtain ⟨rfl, rfl, rfl⟩ := h
      decide
    · obtain ⟨rfl, hor⟩ := h
      rcases hor with rfl | rfl
      · cases ba <;> decide
      · cases bs <;> decide
    · exact h.elim

/-- One admissible stage event preserves the invariant, moving the last
rank to the event's rank. -/
theorem inv_step {ag : String} {r : Nat} {last : Option Nat} {bs ba bd : Bool}
    (hr : tagRank ag = some r) (hInv : Inv last bs ba bd)
    (hok : ∀ p, last = some p →
      (decide (p ≤ r) && !(decide (p = 0) && decide (r = 2))) = true) :
    Inv (some r) (stepActive ag CardId.search bs) (stepActive ag CardId.analyst ba)
      (stepActive ag CardId.dev bd) := by
  rcases tagRank_some_cases hr with ⟨rfl, rfl⟩ | ⟨rfl, rfl⟩ | ⟨rfl, rfl⟩ | ⟨rfl, rfl⟩
  -- SEARCH, rank 0: only none or 0 can precede
  · rcases last with _ | q
    · exact ⟨rfl, hInv.2.1, hInv.2.2⟩
    · have hq : q = 0 := by simpa using hok
      subst hq
      exact ⟨rfl, hInv.2.1, hInv.2.2⟩
  -- ANALYST, rank 1: none, 0 or 1 can precede
  · rcases last with _ | q
    · exact ⟨rfl, rfl, hInv.2.2⟩
    · have hq : q ≤ 1 := by simpa using hok
      rcases q with _ | _ | q
      · exact ⟨rfl, rfl, hInv.2.2⟩
      · exact ⟨rfl, rfl, hInv.2.2⟩
      · exact absurd hq (by omega)
  -- DEV, rank 2: none, 1 or 2 can precede (0 is excluded by okRanks)
  · rcases last with _ | q
    · exact ⟨hInv.1, rfl, rfl⟩
    · have hq : q ≤ 2 ∧ ¬q = 0 := by simpa using hok
      rcases q with _ | _ | _ | q
      · exact absurd rfl hq.2
      · exact ⟨hInv.1, rfl, rfl⟩
      · exact ⟨hInv.1, rfl, rfl⟩
      · exact absurd hq.1 (by omega)
  -- COMPLETE, rank 3: anything can precede
  · rcases last with _ | q
    · exact ⟨rfl, Or.inl hInv.1⟩
    · have hq : q ≤ 3 := by simpa using hok
      rcases q with _ | _ | _ | _ | q
      · exact ⟨rfl, Or.inr hInv.2.1⟩
      · exact ⟨rfl, Or.inl hInv.1⟩
      · exact ⟨rfl, Or.inl hInv.1⟩
      · exact ⟨rfl, hInv.2⟩
      · exact absurd hq (by omega)

/-- Unfolding of `okRanks` on a cons cell. -/
theorem okRanks_cons (last : Option Nat) (r : Nat) (rest : List Nat) :
    okRanks last (r :: rest) =
      ((match last with
        | none => true
        | some p => decide (p ≤ r) && !(decide (p = 0) && decide (r = 2))) &&
       okRanks (some r) rest) := rfl

/-- For a present last rank, the `okRanks` head constraint holds as a plain
boolean fact. -/
theorem okRanks_head {last : Option Nat} {r : Nat} {rest : List Nat}
    (h : okRanks last (r :: rest) = true) :
    ∀ p, last = some p →
      (decide (p ≤ r) && !(decide (p = 0) && decide (r = 2))) = true := by
  intro p hp
  subst hp
  rw [okRanks_cons, Bool.and_eq_true] at h
  exact h.1

/-- The tail of an admissible rank list is admissible after its head. -/
theorem okRanks_tail {last : Option Nat} {r : Nat} {rest : List Nat}
    (h : okRanks last (r :: rest) = true) : okRanks (some r) rest = true := by
  rw [okRanks_cons, Bool.and_eq_true] at h
  exact h.2

/-- The invariant holds after every prefix of an admissible stream. -/
theorem inv_processMsgs (l : List Msg) :
    ∀ (s : UIState) (last : Option Nat),
      Inv last s.cardSearch.activeCard s.cardAnalyst.activeCard s.cardDev.activeCard →
      okRanks last (stageRanks l) = true →
      ∀ k, ∃ last2,
        Inv last2 (processMsgs (l.take k) s).cardSearch.activeCard
          (processMsgs (l.take k) s).cardAnalyst.activeCard
          (processMsgs (l.take k) s).cardDev.activeCard := by
  induction l with
  | nil =>
    intro s last hInv _ k
    exact ⟨last, by simpa [processMsgs] using hInv⟩
  | cons m rest ih =>
    intro s last hInv hok k
    cases k with
    | zero => exact ⟨last, by simpa [processMsgs] using hInv⟩
    | succ k =>
      rw [List.take_succ_cons]
      have hproc : processMsgs (m :: rest.take k) s =
          processMsgs (rest.take k) (handleBackendMessage m s) := rfl
      rw [hproc]
      have hs : (handleBackendMessage m s).cardSearch.activeCard =
          stepActive m.agent CardId.search s.cardSearch.activeCard :=
        active_step m s CardId.search
      have ha : (handleBackendMessage m s).cardAnalyst.activeCard =
          stepActive m.agent CardId.analyst s.cardAnalyst.activeCard :=
        active_step m s CardId.analyst
      have hd : (handleBackendMessage m s).cardDev.activeCard =
          stepActive m.agent CardId.dev s.cardDev.activeCard :=
        active_step m s CardId.dev
      rcases hmr : tagRank m.agent with _ | r
      · refine ih (handleBackendMessage m s) last ?_ ?_ k
        · rw [hs, ha, hd, stepActive_of_tagRank_none hmr,
              stepActive_of_tagRank_none hmr, stepActive_of_tagRank_none hmr]
          exact hInv
        · have hsr : stageRanks (m :: rest) = stageRanks rest := by
            simp [stageRanks, List.filterMap_cons, hmr]
          rwa [hsr] at hok
      · have hsr : stageRanks (m :: rest) = r :: stageRanks rest := by
          simp [stageRanks, List.filterMap_cons, hmr]
        rw [hsr] at hok
        refine ih (handleBackendMessage m s) (some r) ?_ (okRanks_tail hok) k
        rw [hs, ha, hd]
        exact inv_step hmr hInv (okRanks_head hok)

/-! ### Claims C1 and C2 -/

/-- Claim C1, counterexample: from the reset state, the out-of-order stream
SEARCH then DEV leaves both the SEARCH card and the DEV card carrying
`active-card` simultaneously — `setActiveCard` never removes the class from
the other cards and a DEV event only completes the ANALYST card, so the
claimed exclusivity fails for arbitrary sequences. -/
theorem c1_exclusive_counterexample :
    (processMsgs [mkMsg "SEARCH", mkMsg "DEV"] initialUI).cardSearch.activeCard = true ∧
    (processMsgs [mkMsg "SEARCH", mkMsg "DEV"] initialUI).cardDev.activeCard = true ∧
    activeTotal (processMsgs [mkMsg "SEARCH", mkMsg "DEV"] initialUI) = 2 :=
  ⟨rfl, rfl, rfl⟩

/-- Claim C1 (amended): for streams whose stage-relevant tags occur in
non-decreasing protocol order and never jump directly from SEARCH to DEV
(`okRanks`), at most one of the three stage cards carries `active-card`
after processing any prefix from the reset state. -/
theorem c1_exclusive_ordered (l : List Msg)
    (hok : okRanks none (stageRanks l) = true) (k : Nat) :
    activeTotal (processMsgs (l.take k) initialUI) ≤ 1 := by
  obtain ⟨last2, hInv⟩ :=
    inv_processMsgs l initialUI none ⟨rfl, rfl, rfl⟩ hok k
  exact inv_atMostOne hInv

/-- Witness for `c1_exclusive_ordered` on the canonical full stream. -/
theorem c1_exclusive_witness :
    okRanks none
      (stageRanks [mkMsg "SEARCH", mkMsg "ANALYST", mkMsg "DEV", mkMsg "COMPLETE"]) = true ∧
    activeTotal (processMsgs
      ([mkMsg "SEARCH", mkMsg "ANALYST", mkMsg "DEV", mkMsg "COMPLETE"].take 3)
      initialUI) ≤ 1 :=
  ⟨by decide, c1_exclusive_ordered _ (by decide) 3⟩

/-- Claim C2, counterexample: in the stream ANALYST then SEARCH, the first
event marks the SEARCH card completed (it loses `active-card` and gets the
completed border), and the following SEARCH event re-marks that same card
active — completion is not monotonic for out-of-order streams. -/
theorem c2_monotonic_counterexample :
    completesCard (mkMsg "ANALYST").agent CardId.search = true ∧
    activeAt [mkMsg "ANALYST", mkMsg "SEARCH"] 1 CardId.search = false ∧
    (processMsgs ([mkMsg "ANALYST", mkMsg "SEARCH"].take 1) initialUI).cardSearch.borderColor
      = "rgba(255,255,255,0.1)" ∧
    activatesCard (mkMsg "SEARCH").agent CardId.search = true ∧
    activeAt [mkMsg "ANALYST", mkMsg "SEARCH"] 2 CardId.search = true :=
  ⟨rfl, rfl, rfl, rfl, rfl⟩

/-- Claim C2 (amended): for streams whose stage-relevant tags occur in
non-decreasing protocol order, completion is monotonic: if processing event
`i` turns card `c` from active to inactive (which only a completion can do),
then `c` stays inactive after every later prefix — no subsequent event
re-marks it active. -/
theorem c2_monotonic_ordered (l : List Msg) (hord : OrderedStream l) (c : CardId)
    (i k : Nat) (hAi : activeAt l i c = true) (hAi1 : activeAt l (i+1) c = false)
    (hik : i + 1 ≤ k) : activeAt l k c = false := by
  have hilen : i < l.length := by
    by_contra hge
    push_neg at hge
    have hnone : l[i]? = none := List.getElem?_eq_none_iff.mpr hge
    have hstable := activeAt_succ_of_none l i c hnone
    rw [hAi1, hAi] at hstable
    exact absurd hstable (by simp)
  have hmi : l[i]? = some l[i] := List.getElem?_eq_getElem hilen
  have hstep := activeAt_succ_of_getElem l i c (l[i]) hmi
  rw [hAi] at hstep
  rw [hstep] at hAi1
  have hcomp : completesCard (l[i]).agent c = true := stepActive_deactivated rfl hAi1
  have hrank_i : tagRank (l[i]).agent = some (cardRank c + 1) := completesCard_rank hcomp
  induction k, hik using Nat.le_induction with
  | base =>
    rw [hstep]
    exact hAi1
  | succ k hk ih =>
    rcases hmk : l[k]? with _ | mk
    · rw [activeAt_succ_of_none l k c hmk]
      exact ih
    · rw [activeAt_succ_of_getElem l k c mk hmk, ih]
      apply stepActive_false
      by_contra hact
      rw [Bool.not_eq_false] at hact
      have hrank_k : tagRank mk.agent = some (cardRank c) := activatesCard_rank hact
      have hklen : k < l.length := by
        by_contra hge2
        push_neg at hge2
        rw [List.getElem?_eq_none_iff.mpr hge2] at hmk
        exact Option.noConfusion hmk
      have hkm : l[k] = mk := by
        have := List.getElem?_eq_getElem hklen
        rw [hmk] at this
        injection this with h'
        exact h'.symm
      have hpair := List.pairwise_iff_getElem.mp hord i k hilen hklen
        (Nat.lt_of_lt_of_le (Nat.lt_succ_self i) hk)
      rw [hkm] at hpair
      unfold rankLe at hpair
      rw [hrank_i, hrank_k] at hpair
      simp at hpair

/-- Witness for `c2_monotonic_ordered` on a concrete ordered stream. -/
theorem c2_monotonic_witness :
    OrderedStream [mkMsg "SEARCH", mkMsg "ANALYST"] ∧
    activeAt [mkMsg "SEARCH", mkMsg "ANALYST"] 1 CardId.search = true ∧
    activeAt [mkMsg "SEARCH", mkMsg "ANALYST"] 2 CardId.search = false :=
  ⟨by decide, rfl,
   c2_monotonic_ordered [mkMsg "SEARCH", mkMsg "ANALYST"] (by decide) CardId.search
     1 2 rfl rfl (by decide)⟩

end Wyronix
